import Mathlib

/-!
Verification development for the `ecommerce-system` repository (two NestJS
microservices: an inventory service and an order service coordinating over
RabbitMQ).  The inventory business logic is embedded from
`src/inventory-service/src/app.module.ts` (class `InventoryService`); the
persistent store is modelled as an association list of items keyed by
`productCode`, matching the store contract (keyed lookup, insert-if-absent,
update-by-key).  Parts of the system whose source is not in the repository
snapshot (the order-service `createOrder` choreography, the broker client's
`publishWithResponse`, and the class-validator DTO rules) are modelled from
the specification and are marked as such in their doc comments.
-/

namespace ECom

/-- Inventory item, from the `Inventory` schema: `productCode` (unique key),
`name`, `description`, `quantity`, `price`. Quantities are integers, prices
rationals. -/
structure Inventory where
  productCode : String
  name : String
  description : String
  quantity : Int
  price : Rat
deriving Repr, DecidableEq

/-- `InventoryEventType` from `inventory.events`. -/
inductive InventoryEventType where
  | STOCK_ADDED
  | STOCK_REDUCED
deriving Repr, DecidableEq

/-- `StockUpdateEvent` payload (the `timestamp : Date` field, real wall-clock
time, is omitted from the embedding; no claim mentions it). -/
structure StockUpdateEvent where
  eventType : InventoryEventType
  productCode : String
  previousQuantity : Int
  newQuantity : Int
  productName : String
deriving Repr, DecidableEq

/-- Error outcomes of the inventory-service operations: `NotFoundException`,
`ConflictException`, the generic `Error` thrown on insufficient stock, the
rethrown publish error of `publishStockUpdateEvent`, and the bad-request
rejection of the validation pipe. -/
inductive SvcError where
  | ValidationError
  | NotFound
  | Conflict
  | InsufficientStock
  | PublishFailure
deriving Repr, DecidableEq

/-- The inventory store: a list of items, looked up by `productCode`. -/
abbrev Store := List Inventory

/-- `InventoryRepository.findItemById`: keyed lookup by `productCode`. -/
def findItemById (store : Store) (productCode : String) : Option Inventory :=
  store.find? (fun i => i.productCode = productCode)

/-- Persisting a mutated document (`inventory.save()` / update-by-key):
replaces the stored item with the matching `productCode`. -/
def saveItem (store : Store) (item : Inventory) : Store :=
  store.map (fun i => if i.productCode = item.productCode then item else i)

/-- Result of an inventory-service operation as observed by the caller, the
store and the event stream together: the reply (or error), the store after
the call, and the events actually published. -/
structure OpOutcome (α : Type) where
  result : Except SvcError α
  store : Store
  events : List StockUpdateEvent
deriving Repr

/-- Reply of `InventoryService.checkStock`. -/
structure StockCheckReply where
  available : Bool
  message : String
  currentStock : Int
deriving Repr, DecidableEq

/-- `InventoryService.checkStock(productCode, quantity)`: looks the item up;
absent → `{available: false, message: "Item not found in inventory",
currentStock: 0}`; present → `available = (inventory.quantity ≥ quantity)`
with the current quantity. Read-only: the returned store is the input store. -/
def checkStock (store : Store) (productCode : String) (quantity : Int) :
    StockCheckReply × Store :=
  match findItemById store productCode with
  | none =>
      (⟨false, "Item not found in inventory", 0⟩, store)
  | some inventory =>
      let available := decide (inventory.quantity ≥ quantity)
      let message := if available then "Stock available"
        else "Insufficient stock. Requested: " ++ toString quantity
          ++ ", Available: " ++ toString inventory.quantity
      (⟨available, message, inventory.quantity⟩, store)

/-- `InventoryService.deductStock(productCode, quantity)`: `getItem` throws
`NotFoundException` when absent; throws on `inventory.quantity < quantity`;
otherwise decrements, saves, and publishes a `STOCK_REDUCED` event whose
`previousQuantity` is recomputed as `inventory.quantity + quantity` after the
decrement. `publishOk` is the outcome of the broker publish: when it is
`false`, `publishStockUpdateEvent` rethrows after the save has committed. -/
def deductStock (store : Store) (productCode : String) (quantity : Int)
    (publishOk : Bool) : OpOutcome Unit :=
  match findItemById store productCode with
  | none => ⟨.error .NotFound, store, []⟩
  | some inventory =>
      if inventory.quantity < quantity then
        ⟨.error .InsufficientStock, store, []⟩
      else
        let newQty := inventory.quantity - quantity
        let store1 := saveItem store { inventory with quantity := newQty }
        let stockEvent : StockUpdateEvent :=
          { eventType := .STOCK_REDUCED
            productCode := productCode
            previousQuantity := newQty + quantity
            newQuantity := newQty
            productName := inventory.name }
        if publishOk then ⟨.ok (), store1, [stockEvent]⟩
        else ⟨.error .PublishFailure, store1, []⟩

/-- `InventoryService.getItem(productCode)`: lookup or `NotFoundException`. -/
def getItem (store : Store) (productCode : String) : Except SvcError Inventory :=
  match findItemById store productCode with
  | none => .error .NotFound
  | some item => .ok item

/-- `InventoryService.updateStock(productCode, quantity)`: lookup or
`NotFoundException`; then the repository writes the new quantity
(update-by-key) and an event is published whose type is `STOCK_ADDED` iff
`quantity > previousQuantity`, else `STOCK_REDUCED`.

The repository write `InventoryRepository.updateStock` itself is modelled
from the spec (its source is not in the snapshot): update-by-key setting the
`quantity` field to the supplied value, as the integration test
`should update stock quantity` observes. -/
def updateStock (store : Store) (productCode : String) (quantity : Int)
    (publishOk : Bool) : OpOutcome Inventory :=
  match findItemById store productCode with
  | none => ⟨.error .NotFound, store, []⟩
  | some item =>
      let previousQuantity := item.quantity
      let updatedItem := { item with quantity := quantity }
      let store1 := saveItem store updatedItem
      let eventType := if quantity > previousQuantity then
          InventoryEventType.STOCK_ADDED else InventoryEventType.STOCK_REDUCED
      let stockEvent : StockUpdateEvent :=
        { eventType := eventType
          productCode := productCode
          previousQuantity := previousQuantity
          newQuantity := quantity
          productName := item.name }
      if publishOk then ⟨.ok updatedItem, store1, [stockEvent]⟩
      else ⟨.error .PublishFailure, store1, []⟩

/-- Decimal digit character, as produced by JavaScript `Number.toString()`. -/
def decChar (d : Nat) : Char := Char.ofNat (48 + d)

/-- Decimal digit list of a natural number, most significant first, by
repeated division by 10; structural recursion on a fuel bound so the kernel
can evaluate it (any `fuel > n` yields the full digit list). -/
def natDecDigitsAux : Nat → Nat → List Char
  | 0, _ => []
  | fuel + 1, n =>
      if n < 10 then [decChar n]
      else natDecDigitsAux fuel (n / 10) ++ [decChar (n % 10)]

/-- Decimal digit list of a natural number, most significant first: the
embedding of JavaScript `n.toString()` for a non-negative integer. -/
def natDecDigits (n : Nat) : List Char := natDecDigitsAux (n + 1) n

/-- JavaScript `String(n)` for a natural number. -/
def natToDecString (n : Nat) : String := String.mk (natDecDigits n)

/-- JavaScript `s.padStart(w, '0')`. -/
def padStartZeros (w : Nat) (s : String) : String :=
  if s.length ≥ w then s
  else String.mk (List.replicate (w - s.length) '0') ++ s

/-- `InventoryService.generateProductCode`: `'INV-'` followed by
`Math.floor(Math.random() * 1000000000)` rendered in decimal and zero-padded
to 9 characters. The random draw is supplied as the argument `n`; the
`% 1000000000` reduction realises the range `[0, 10^9)` of the source draw. -/
def generateProductCode (n : Nat) : String :=
  "INV-" ++ padStartZeros 9 (natToDecString (n % 1000000000))

/-- `InventoryService.generateUniqueProductCode`: re-rolls the random code
until it collides with nothing in the store. The source loops on an infinite
random stream; the embedding consumes a finite list of draws and returns
`none` when they are exhausted while still colliding. -/
def generateUniqueProductCode (store : Store) : List Nat → Option String
  | [] => none
  | n :: rest =>
      let productCode := generateProductCode n
      match findItemById store productCode with
      | none => some productCode
      | some _ => generateUniqueProductCode store rest

/-- `CreateInventoryDto`: the creation payload; `productCode` is optional. -/
structure CreateInventoryDto where
  productCode : Option String
  name : String
  description : String
  quantity : Int
  price : Rat
deriving Repr, DecidableEq

/-- Shared tail of `InventoryService.createItem` after the product code is
settled: the repository insert, then the `STOCK_ADDED` event with
`previousQuantity := 0`, published after the write; a publish failure is
rethrown, leaving the insert committed. -/
def finishCreate (store : Store) (code : String) (dto : CreateInventoryDto)
    (publishOk : Bool) : OpOutcome Inventory :=
  let savedItem : Inventory :=
    { productCode := code, name := dto.name, description := dto.description
      quantity := dto.quantity, price := dto.price }
  let store1 := store ++ [savedItem]
  let stockEvent : StockUpdateEvent :=
    { eventType := .STOCK_ADDED
      productCode := savedItem.productCode
      previousQuantity := 0
      newQuantity := savedItem.quantity
      productName := savedItem.name }
  if publishOk then ⟨.ok savedItem, store1, [stockEvent]⟩
  else ⟨.error .PublishFailure, store1, []⟩

/-- `InventoryService.createItem(dto)`: with a caller-supplied `productCode`,
reject with `ConflictException` when it already exists; without one, generate
a unique code from the random draws. Returns `none` only when the finite draw
list is exhausted (the source would keep re-rolling). -/
def createItem (store : Store) (draws : List Nat) (dto : CreateInventoryDto)
    (publishOk : Bool) : Option (OpOutcome Inventory) :=
  match dto.productCode with
  | some code =>
      match findItemById store code with
      | some _ => some ⟨.error .Conflict, store, []⟩
      | none => some (finishCreate store code dto publishOk)
  | none =>
      match generateUniqueProductCode store draws with
      | none => none
      | some code => some (finishCreate store code dto publishOk)

/-! ### Order choreography (modelled from the spec)

The order-service `OrderService.createOrder` source is not in the repository
snapshot; only its module wiring and tests are. The definitions below are
modelled from the spec, §4.4 (state machine) and §8. -/

/-- Order status enumeration (`OrderStatus`). -/
inductive OrderStatus where
  | PENDING
  | CONFIRMED
  | FAILED
deriving Repr, DecidableEq

/-- Persisted order record. -/
structure Order where
  productCode : String
  quantity : Int
  totalPrice : Rat
  status : OrderStatus
deriving Repr, DecidableEq

/-- Caller-visible errors of `createOrder`, from the spec's error taxonomy. -/
inductive OrderError where
  | ValidationError
  | UpstreamUnavailable
  | InsufficientStock (message : String)
  | DeductFailed (message : String)
deriving Repr, DecidableEq

/-- An RPC issued through the broker client, recorded so that a claim can
count the calls the broker receives. -/
inductive BrokerCall where
  | check (productCode : String) (quantity : Int)
  | deduct (productCode : String) (quantity : Int)
deriving Repr, DecidableEq

/-- Outcome of a `publishWithResponse` RPC: a reply payload or `TimedOut`. -/
inductive RpcReply (α : Type) where
  | ok (a : α)
  | timedOut
deriving Repr, DecidableEq

/-- Modelled from the spec: the stock-check RPC reply as consumed by the
order choreography, carrying the availability verdict, the responder's
message, and the unit price from which `totalPrice` is computed. -/
structure CheckStockResponse where
  available : Bool
  message : String
  unitPrice : Rat
deriving Repr, DecidableEq

/-- Modelled from the spec: the stock-deduct RPC reply `{success, message?}`. -/
structure DeductResponse where
  success : Bool
  message : String
deriving Repr, DecidableEq

/-- What a `createOrder` call produces: the caller-visible result, the RPCs
the broker client received (in order), and the orders persisted. -/
structure OrderOutcome where
  result : Except OrderError Order
  calls : List BrokerCall
  persisted : List Order
deriving Repr

/-- Modelled from the spec: `OrderService.createOrder(productCode, quantity)`
(order-service source not in the snapshot), §4.4: (1) validate `quantity`
positive and `productCode` non-empty before any network call, else
`ValidationError`; (2) stock-check RPC — timeout → `UpstreamUnavailable`,
`available: false` → `InsufficientStock` with the responder's message
verbatim; (3) `totalPrice = quantity × unitPrice` from the check response;
(4) stock-deduct RPC — failure persists nothing; (5) persist the order with
`status = CONFIRMED` and return it. The two RPC replies are supplied as
arguments. -/
def createOrder (productCode : String) (quantity : Int)
    (checkReply : RpcReply CheckStockResponse)
    (deductReply : RpcReply DeductResponse) : OrderOutcome :=
  if quantity ≤ 0 ∨ productCode = "" then
    ⟨.error .ValidationError, [], []⟩
  else
    let checkCall := BrokerCall.check productCode quantity
    match checkReply with
    | .timedOut => ⟨.error .UpstreamUnavailable, [checkCall], []⟩
    | .ok resp =>
        if resp.available = false then
          ⟨.error (.InsufficientStock resp.message), [checkCall], []⟩
        else
          let totalPrice : Rat := (quantity : Rat) * resp.unitPrice
          let deductCall := BrokerCall.deduct productCode quantity
          match deductReply with
          | .timedOut =>
              ⟨.error .UpstreamUnavailable, [checkCall, deductCall], []⟩
          | .ok dresp =>
              if dresp.success = false then
                ⟨.error (.DeductFailed dresp.message),
                  [checkCall, deductCall], []⟩
              else
                let order : Order :=
                  { productCode := productCode, quantity := quantity
                    totalPrice := totalPrice, status := .CONFIRMED }
                ⟨.ok order, [checkCall, deductCall], [order]⟩

/-! ### Broker client pending-waiter registry (modelled from the spec)

The `RabbitMQService.publishWithResponse` source is not in the repository
snapshot (only mocks of it appear in the tests). The registry below is
modelled from the spec, §4.2 and §9: a table of pending waiters keyed by
`correlationId`; a matching reply resolves the waiter with the payload and
removes it, timeout expiry rejects it with `TimedOut` and removes it, and an
event for an absent `correlationId` is discarded. Fresh ids come from a
counter, so a registration is never reused. -/

/-- What a suspended `publishWithResponse` caller eventually receives. -/
inductive RpcOutcome where
  | resolved (payload : Nat)
  | timedOut
deriving Repr, DecidableEq

/-- Broker-client state: the fresh-id counter, the pending correlation ids,
and the outcome each caller has received (at most one per id). -/
structure BrokerState where
  nextId : Nat
  pending : List Nat
  outcomes : Nat → Option RpcOutcome

/-- Events hitting the registry: an inbound reply tagged with a correlation
id, a timeout expiry for a correlation id, and the registration of a new
request. -/
inductive BrokerEvent where
  | reply (cid : Nat) (payload : Nat)
  | timeout (cid : Nat)
  | register
deriving Repr, DecidableEq

/-- Registering a waiter: a fresh `correlationId` from the counter. -/
def registerWaiter (s : BrokerState) : Nat × BrokerState :=
  (s.nextId,
   { nextId := s.nextId + 1
     pending := s.nextId :: s.pending
     outcomes := s.outcomes })

/-- One registry transition. A reply or timeout for a pending id removes the
registration and delivers the outcome to its caller; for an id no longer
pending it is silently discarded. -/
def brokerStep (s : BrokerState) : BrokerEvent → BrokerState
  | .reply cid payload =>
      if cid ∈ s.pending then
        { s with
          pending := s.pending.erase cid
          outcomes := fun c =>
            if c = cid then some (.resolved payload) else s.outcomes c }
      else s
  | .timeout cid =>
      if cid ∈ s.pending then
        { s with
          pending := s.pending.erase cid
          outcomes := fun c =>
            if c = cid then some .timedOut else s.outcomes c }
      else s
  | .register => (registerWaiter s).2

/-- Running the registry over a sequence of events. -/
def brokerRun (s : BrokerState) (evs : List BrokerEvent) : BrokerState :=
  evs.foldl brokerStep s

/-- Registry well-formedness: pending ids are distinct and below the
counter, a pending waiter has no outcome yet, and ids not yet issued have no
outcome. -/
def BrokerWF (s : BrokerState) : Prop :=
  s.pending.Nodup ∧
  (∀ c ∈ s.pending, c < s.nextId) ∧
  (∀ c ∈ s.pending, s.outcomes c = none) ∧
  (∀ c, s.nextId ≤ c → s.outcomes c = none)

/-! ### Validation layer and the inventory state machine (for the
non-negativity invariant)

The class-validator DTO rules of the HTTP layer are not in the snapshot;
they are modelled from the spec, §6: `quantity` strictly positive on the
stock-update write path, `quantity`/`price` non-negative on item creation
(observed by the tests `should reject invalid inventory data` and
`should reject negative stock quantities`). -/

/-- Modelled from the spec: `CreateInventoryDto` validation — `quantity` and
`price` non-negative on creation. -/
def validCreateDto (dto : CreateInventoryDto) : Bool :=
  decide (0 ≤ dto.quantity) && decide (0 ≤ dto.price)

/-- Modelled from the spec: the stock-update DTO validation — `quantity`
strictly positive on the update write path. -/
def validUpdateQuantity (quantity : Int) : Bool :=
  decide (0 < quantity)

/-- The create endpoint: DTO validation in front of
`InventoryService.createItem`. -/
def createItemEndpoint (store : Store) (draws : List Nat)
    (dto : CreateInventoryDto) (publishOk : Bool) :
    Option (OpOutcome Inventory) :=
  if validCreateDto dto then createItem store draws dto publishOk
  else some ⟨.error .ValidationError, store, []⟩

/-- The stock-update endpoint: DTO validation in front of
`InventoryService.updateStock`. -/
def updateStockEndpoint (store : Store) (productCode : String)
    (quantity : Int) (publishOk : Bool) : OpOutcome Inventory :=
  if validUpdateQuantity quantity then
    updateStock store productCode quantity publishOk
  else ⟨.error .ValidationError, store, []⟩

/-- An operation hitting the inventory store: item creation and stock update
arrive through the validated HTTP layer, stock deduction through the broker
handler. -/
inductive InvOp where
  | create (draws : List Nat) (dto : CreateInventoryDto) (publishOk : Bool)
  | update (productCode : String) (quantity : Int) (publishOk : Bool)
  | deduct (productCode : String) (quantity : Int) (publishOk : Bool)

/-- The store after one operation. -/
def applyInvOp (store : Store) : InvOp → Store
  | .create draws dto publishOk =>
      match createItemEndpoint store draws dto publishOk with
      | none => store
      | some out => out.store
  | .update productCode quantity publishOk =>
      (updateStockEndpoint store productCode quantity publishOk).store
  | .deduct productCode quantity publishOk =>
      (deductStock store productCode quantity publishOk).store

/-- The store holds no negative quantity. -/
def StoreNonNeg (store : Store) : Prop :=
  ∀ i ∈ store, 0 ≤ i.quantity

instance (store : Store) : Decidable (StoreNonNeg store) :=
  List.decidableBAll _ store

/-! ### Basic lemmas about the store -/

theorem findItemById_mem {store : Store} {code : String} {i : Inventory}
    (h : findItemById store code = some i) : i ∈ store := by
  unfold findItemById at h
  exact List.mem_of_find?_eq_some h

theorem findItemById_code {store : Store} {code : String} {i : Inventory}
    (h : findItemById store code = some i) : i.productCode = code := by
  unfold findItemById at h
  have hp := List.find?_some h
  simpa using hp

theorem findItemById_saveItem_self {store : Store} {item i : Inventory}
    (h : findItemById store item.productCode = some i) :
    findItemById (saveItem store item) item.productCode = some item := by
  induction store with
  | nil => simp [findItemById] at h
  | cons a as ih =>
      by_cases ha : a.productCode = item.productCode
      · simp [findItemById, saveItem, ha]
      · simp only [findItemById, saveItem, List.map_cons, if_neg ha] at *
        rw [List.find?_cons_of_neg _ (by simpa using ha)] at h ⊢
        exact ih h

theorem findItemById_append_singleton {store : Store} {item : Inventory}
    (h : findItemById store item.productCode = none) :
    findItemById (store ++ [item]) item.productCode = some item := by
  simp only [findItemById] at *
  rw [List.find?_append, h]
  simp

/-! ### Lemmas about product-code generation -/

theorem generateUniqueProductCode_not_found {store : Store} {draws : List Nat}
    {code : String} (h : generateUniqueProductCode store draws = some code) :
    findItemById store code = none := by
  induction draws with
  | nil => simp [generateUniqueProductCode] at h
  | cons n rest ih =>
      rw [generateUniqueProductCode] at h
      cases hf : findItemById store (generateProductCode n) with
      | none => rw [hf] at h; cases h; exact hf
      | some _ => rw [hf] at h; exact ih h

theorem generateUniqueProductCode_mem {store : Store} {draws : List Nat}
    {code : String} (h : generateUniqueProductCode store draws = some code) :
    ∃ n, code = generateProductCode n := by
  induction draws with
  | nil => simp [generateUniqueProductCode] at h
  | cons n rest ih =>
      rw [generateUniqueProductCode] at h
      cases hf : findItemById store (generateProductCode n) with
      | none => rw [hf] at h; cases h; exact ⟨n, rfl⟩
      | some _ => rw [hf] at h; exact ih h

/-! ### Claim theorems -/

/-- C1: for every `createOrder(productCode, quantity)` call in which both the
stock-check RPC and the stock-deduct RPC succeed, the returned and persisted
order has `status = CONFIRMED` and `totalPrice = quantity × unitPrice`, the
unit price taken from the stock-check response. -/
theorem createOrder_success_confirmed (productCode : String) (quantity : Int)
    (resp : CheckStockResponse) (dresp : DeductResponse)
    (hq : 0 < quantity) (hpc : productCode ≠ "")
    (hav : resp.available = true) (hds : dresp.success = true) :
    ∃ order : Order,
      (createOrder productCode quantity (.ok resp) (.ok dresp)).result =
        .ok order ∧
      order.status = .CONFIRMED ∧
      order.totalPrice = (quantity : Rat) * resp.unitPrice ∧
      (createOrder productCode quantity (.ok resp) (.ok dresp)).persisted =
        [order] := by
  have hcond : ¬(quantity ≤ 0 ∨ productCode = "") := by
    push_neg
    exact ⟨by omega, hpc⟩
  refine ⟨⟨productCode, quantity, (quantity : Rat) * resp.unitPrice,
    .CONFIRMED⟩, ?_, rfl, rfl, ?_⟩ <;>
    simp [createOrder, hcond, hav, hds]

/-- Witness for C1 at `("PROD-1", 2)` with a successful check reply of unit
price 100 and a successful deduct reply. -/
theorem createOrder_success_confirmed_witness :
    ∃ order : Order,
      (createOrder "PROD-1" 2 (.ok ⟨true, "Stock available", 100⟩)
          (.ok ⟨true, "ok"⟩)).result = .ok order ∧
      order.status = .CONFIRMED ∧
      order.totalPrice = ((2 : Int) : Rat) *
        (⟨true, "Stock available", 100⟩ : CheckStockResponse).unitPrice ∧
      (createOrder "PROD-1" 2 (.ok ⟨true, "Stock available", 100⟩)
          (.ok ⟨true, "ok"⟩)).persisted = [order] :=
  createOrder_success_confirmed "PROD-1" 2 ⟨true, "Stock available", 100⟩
    ⟨true, "ok"⟩ (by decide) (by decide) rfl rfl

/-- C2: every `createOrder(productCode, quantity)` call with `quantity ≤ 0`
or an empty `productCode` fails with `ValidationError` and the broker client
receives zero calls: no stock-check or stock-deduct RPC is issued. -/
theorem createOrder_invalid_no_rpc (productCode : String) (quantity : Int)
    (checkReply : RpcReply CheckStockResponse)
    (deductReply : RpcReply DeductResponse)
    (h : quantity ≤ 0 ∨ productCode = "") :
    (createOrder productCode quantity checkReply deductReply).result =
      .error .ValidationError ∧
    (createOrder productCode quantity checkReply deductReply).calls = [] := by
  have hout : createOrder productCode quantity checkReply deductReply =
      ⟨.error .ValidationError, [], []⟩ := by
    unfold createOrder
    rw [if_pos h]
  rw [hout]
  exact ⟨rfl, rfl⟩

/-- Witness for C2 at `("PROD-1", -1)`. -/
theorem createOrder_invalid_no_rpc_witness :
    (createOrder "PROD-1" (-1) (.ok ⟨true, "Stock available", 100⟩)
        (.ok ⟨true, "ok"⟩)).result = .error .ValidationError ∧
    (createOrder "PROD-1" (-1) (.ok ⟨true, "Stock available", 100⟩)
        (.ok ⟨true, "ok"⟩)).calls = [] :=
  createOrder_invalid_no_rpc "PROD-1" (-1) _ _ (Or.inl (by decide))

/-- C4: `checkStock(productCode, quantity)` replies
`{available: false, message: "Item not found in inventory"}` when no item
with `productCode` exists; otherwise it replies
`available = (quantity ≤ item.quantity)` with the item's quantity as
`currentStock`; in both cases the store is left unchanged. -/
theorem checkStock_reply_spec (store : Store) (productCode : String)
    (quantity : Int) :
    (findItemById store productCode = none →
      checkStock store productCode quantity =
        (⟨false, "Item not found in inventory", 0⟩, store)) ∧
    (∀ i, findItemById store productCode = some i →
      ((checkStock store productCode quantity).1.available = true ↔
        quantity ≤ i.quantity) ∧
      (checkStock store productCode quantity).1.currentStock = i.quantity) ∧
    (checkStock store productCode quantity).2 = store := by
  refine ⟨?_, ?_, ?_⟩
  · intro h
    unfold checkStock
    rw [h]
  · intro i h
    unfold checkStock
    rw [h]
    refine ⟨?_, rfl⟩
    simp [ge_iff_le]
  · unfold checkStock
    cases h : findItemById store productCode <;> rfl

/-- Witness for C4 on the one-item store `[⟨"P1", "Widget", "d", 5, 10⟩]`. -/
theorem checkStock_reply_spec_witness :
    ((checkStock [⟨"P1", "Widget", "d", 5, 10⟩] "P1" 3).1.available = true ↔
      (3 : Int) ≤ (⟨"P1", "Widget", "d", 5, 10⟩ : Inventory).quantity) ∧
    (checkStock [⟨"P1", "Widget", "d", 5, 10⟩] "P1" 3).1.currentStock =
      (⟨"P1", "Widget", "d", 5, 10⟩ : Inventory).quantity :=
  (checkStock_reply_spec [⟨"P1", "Widget", "d", 5, 10⟩] "P1" 3).2.1
    ⟨"P1", "Widget", "d", 5, 10⟩ (by decide)

/-- C10: for an existing item, `updateStock(productCode, quantity)` sets the
stored quantity to exactly the supplied value (absolute assignment, not a
delta), returns the item carrying the new quantity, and leaves every other
field of the item unchanged. -/
theorem updateStock_absolute (store : Store) (productCode : String)
    (quantity : Int) (i : Inventory)
    (h : findItemById store productCode = some i) :
    (updateStock store productCode quantity true).result =
      .ok { i with quantity := quantity } ∧
    findItemById (updateStock store productCode quantity true).store
      productCode = some { i with quantity := quantity } ∧
    ({ i with quantity := quantity } : Inventory).quantity = quantity ∧
    ({ i with quantity := quantity } : Inventory).productCode =
      i.productCode ∧
    ({ i with quantity := quantity } : Inventory).name = i.name ∧
    ({ i with quantity := quantity } : Inventory).description =
      i.description ∧
    ({ i with quantity := quantity } : Inventory).price = i.price := by
  have hcode := findItemById_code h
  subst hcode
  have hout : updateStock store i.productCode quantity true =
      ⟨.ok { i with quantity := quantity },
        saveItem store { i with quantity := quantity },
        [⟨if quantity > i.quantity then .STOCK_ADDED else .STOCK_REDUCED,
          i.productCode, i.quantity, quantity, i.name⟩]⟩ := by
    unfold updateStock
    rw [h]
    rfl
  rw [hout]
  refine ⟨rfl, ?_, rfl, rfl, rfl, rfl, rfl⟩
  have h' : findItemById store
      ({ i with quantity := quantity } : Inventory).productCode = some i := h
  exact findItemById_saveItem_self h'

/-- Witness for C10: updating `"P1"` from quantity 5 to 42. -/
theorem updateStock_absolute_witness :
    (updateStock [⟨"P1", "Widget", "d", 5, 10⟩] "P1" 42 true).result =
      .ok { (⟨"P1", "Widget", "d", 5, 10⟩ : Inventory) with quantity := 42 } ∧
    findItemById
      (updateStock [⟨"P1", "Widget", "d", 5, 10⟩] "P1" 42 true).store "P1" =
      some { (⟨"P1", "Widget", "d", 5, 10⟩ : Inventory) with
        quantity := 42 } ∧
    ({ (⟨"P1", "Widget", "d", 5, 10⟩ : Inventory) with
      quantity := 42 } : Inventory).quantity = 42 ∧
    ({ (⟨"P1", "Widget", "d", 5, 10⟩ : Inventory) with
      quantity := 42 } : Inventory).productCode =
      (⟨"P1", "Widget", "d", 5, 10⟩ : Inventory).productCode ∧
    ({ (⟨"P1", "Widget", "d", 5, 10⟩ : Inventory) with
      quantity := 42 } : Inventory).name =
      (⟨"P1", "Widget", "d", 5, 10⟩ : Inventory).name ∧
    ({ (⟨"P1", "Widget", "d", 5, 10⟩ : Inventory) with
      quantity := 42 } : Inventory).description =
      (⟨"P1", "Widget", "d", 5, 10⟩ : Inventory).description ∧
    ({ (⟨"P1", "Widget", "d", 5, 10⟩ : Inventory) with
      quantity := 42 } : Inventory).price =
      (⟨"P1", "Widget", "d", 5, 10⟩ : Inventory).price :=
  updateStock_absolute [⟨"P1", "Widget", "d", 5, 10⟩] "P1" 42
    ⟨"P1", "Widget", "d", 5, 10⟩ (by decide)

/-- C3: `deductStock(productCode, quantity)` fails with `NotFound` exactly
when no item with `productCode` exists; fails with `InsufficientStock`
exactly when the item exists and `item.quantity < quantity`; otherwise it
decrements the stored quantity by exactly `quantity`, persists it, emits a
`STOCK_REDUCED` event whose `previousQuantity`/`newQuantity` are the stock
before and after, and replies success. On either failure the stored
quantity is unchanged. (Stated for a successful event publish.) -/
theorem deductStock_spec (store : Store) (productCode : String)
    (quantity : Int) :
    ((deductStock store productCode quantity true).result =
        .error .NotFound ↔ findItemById store productCode = none) ∧
    ((deductStock store productCode quantity true).result =
        .error .InsufficientStock ↔
      ∃ i, findItemById store productCode = some i ∧
        i.quantity < quantity) ∧
    (∀ i, findItemById store productCode = some i →
      ¬ i.quantity < quantity →
      (deductStock store productCode quantity true).result = .ok () ∧
      findItemById (deductStock store productCode quantity true).store
        productCode = some { i with quantity := i.quantity - quantity } ∧
      (deductStock store productCode quantity true).events =
        [⟨.STOCK_REDUCED, productCode, i.quantity,
          i.quantity - quantity, i.name⟩]) ∧
    (∀ e, (deductStock store productCode quantity true).result = .error e →
      (deductStock store productCode quantity true).store = store) := by
  cases hf : findItemById store productCode with
  | none =>
      have hout : deductStock store productCode quantity true =
          ⟨.error .NotFound, store, []⟩ := by
        unfold deductStock
        rw [hf]
      rw [hout]
      refine ⟨by simp, by simp, ?_, fun e _ => rfl⟩
      intro i h
      exact absurd h (by simp)
  | some i0 =>
      by_cases hlt : i0.quantity < quantity
      · have hout : deductStock store productCode quantity true =
            ⟨.error .InsufficientStock, store, []⟩ := by
          unfold deductStock
          rw [hf]
          simp [hlt]
        rw [hout]
        refine ⟨by simp, ?_, ?_, fun e _ => rfl⟩
        · constructor
          · intro _
            exact ⟨i0, rfl, hlt⟩
          · intro _
            rfl
        · intro i h hnlt
          injection h with h
          subst h
          exact absurd hlt hnlt
      · have hout : deductStock store productCode quantity true =
            ⟨.ok (),
              saveItem store { i0 with quantity := i0.quantity - quantity },
              [⟨.STOCK_REDUCED, productCode,
                i0.quantity - quantity + quantity, i0.quantity - quantity,
                i0.name⟩]⟩ := by
          unfold deductStock
          rw [hf]
          simp [hlt]
        rw [hout]
        have hprev : i0.quantity - quantity + quantity = i0.quantity := by
          omega
        refine ⟨by simp, by simp [hlt], ?_, ?_⟩
        · intro i h hnlt2
          injection h with h
          subst h
          refine ⟨rfl, ?_, ?_⟩
          · have hcode := findItemById_code hf
            rw [← hcode]
            have h' : findItemById store
                ({ i0 with quantity := i0.quantity - quantity } :
                  Inventory).productCode = some i0 := by
              rw [hcode]
              exact hf
            exact @findItemById_saveItem_self store
              { i0 with quantity := i0.quantity - quantity } i0 h'
          · rw [hprev]
        · intro e he
          exact absurd he (by simp)

/-- Witness for C3: deducting 3 from `"P1"` holding 5. -/
theorem deductStock_spec_witness :
    (deductStock [⟨"P1", "Widget", "d", 5, 10⟩] "P1" 3 true).result =
      .ok () ∧
    findItemById
      (deductStock [⟨"P1", "Widget", "d", 5, 10⟩] "P1" 3 true).store "P1" =
      some { (⟨"P1", "Widget", "d", 5, 10⟩ : Inventory) with
        quantity := (⟨"P1", "Widget", "d", 5, 10⟩ : Inventory).quantity - 3 } ∧
    (deductStock [⟨"P1", "Widget", "d", 5, 10⟩] "P1" 3 true).events =
      [⟨.STOCK_REDUCED, "P1", (⟨"P1", "Widget", "d", 5, 10⟩ :
        Inventory).quantity,
        (⟨"P1", "Widget", "d", 5, 10⟩ : Inventory).quantity - 3,
        (⟨"P1", "Widget", "d", 5, 10⟩ : Inventory).name⟩] :=
  (deductStock_spec [⟨"P1", "Widget", "d", 5, 10⟩] "P1" 3).2.2.1
    ⟨"P1", "Widget", "d", 5, 10⟩ (by decide) (by decide)

/-- C8: when the store write of `createItem` or `updateStock` succeeds but
the stock-event publication fails, the failure is reported to the caller
(the publish error is rethrown) and the committed write is not rolled back:
the created or updated item remains persisted with its new state, and no
event is emitted. -/
theorem publishFailure_keeps_write :
    (∀ (store : Store) (draws : List Nat) (dto : CreateInventoryDto) out,
      createItem store draws dto false = some out →
      out.result ≠ .error .Conflict →
      out.result = .error .PublishFailure ∧
      ∃ code, findItemById store code = none ∧
        findItemById out.store code =
          some ⟨code, dto.name, dto.description, dto.quantity, dto.price⟩) ∧
    (∀ (store : Store) (productCode : String) (quantity : Int) i,
      findItemById store productCode = some i →
      (updateStock store productCode quantity false).result =
        .error .PublishFailure ∧
      findItemById (updateStock store productCode quantity false).store
        productCode = some { i with quantity := quantity } ∧
      (updateStock store productCode quantity false).events = []) := by
  constructor
  · intro store draws dto out hc hnc
    cases hdto : dto.productCode with
    | some code =>
        cases hf : findItemById store code with
        | some j =>
            simp only [createItem, hdto, hf] at hc
            injection hc with hc
            rw [← hc] at hnc
            exact absurd rfl hnc
        | none =>
            simp only [createItem, hdto, hf] at hc
            injection hc with hc
            subst hc
            refine ⟨rfl, code, hf, ?_⟩
            exact @findItemById_append_singleton store
              ⟨code, dto.name, dto.description, dto.quantity, dto.price⟩ hf
    | none =>
        cases hg : generateUniqueProductCode store draws with
        | none =>
            simp only [createItem, hdto, hg] at hc
            exact absurd hc (by simp)
        | some code =>
            simp only [createItem, hdto, hg] at hc
            injection hc with hc
            subst hc
            refine ⟨rfl, code, generateUniqueProductCode_not_found hg, ?_⟩
            exact @findItemById_append_singleton store
              ⟨code, dto.name, dto.description, dto.quantity, dto.price⟩
              (generateUniqueProductCode_not_found hg)
  · intro store productCode quantity i h
    have hcode := findItemById_code h
    subst hcode
    have hout : updateStock store i.productCode quantity false =
        ⟨.error .PublishFailure,
          saveItem store { i with quantity := quantity }, []⟩ := by
      unfold updateStock
      rw [h]
      rfl
    rw [hout]
    refine ⟨rfl, ?_, rfl⟩
    have h' : findItemById store
        ({ i with quantity := quantity } : Inventory).productCode = some i :=
      h
    exact findItemById_saveItem_self h'

/-- Witness for C8: a failed publish on updating `"P1"` to 7 reports the
failure and keeps the write. -/
theorem publishFailure_keeps_write_witness :
    (updateStock [⟨"P1", "Widget", "d", 5, 10⟩] "P1" 7 false).result =
      .error .PublishFailure ∧
    findItemById
      (updateStock [⟨"P1", "Widget", "d", 5, 10⟩] "P1" 7 false).store "P1" =
      some { (⟨"P1", "Widget", "d", 5, 10⟩ : Inventory) with quantity := 7 } ∧
    (updateStock [⟨"P1", "Widget", "d", 5, 10⟩] "P1" 7 false).events = [] :=
  publishFailure_keeps_write.2 [⟨"P1", "Widget", "d", 5, 10⟩] "P1" 7
    ⟨"P1", "Widget", "d", 5, 10⟩ (by decide)

/-- Counterexample to C7 as stated: updating `"P1"` from quantity 5 to 5
(new quantity equal to the previous one, so `new ≥ previous` holds) emits a
`STOCK_REDUCED` event, not the `STOCK_ADDED` the claim requires, because the
code tests `quantity > previousQuantity` strictly. -/
theorem stockEvent_type_cex :
    (updateStock [⟨"P1", "Widget", "d", 5, 10⟩] "P1" 5 true).events.map
        StockUpdateEvent.eventType = [.STOCK_REDUCED] ∧
    ¬((updateStock [⟨"P1", "Widget", "d", 5, 10⟩] "P1" 5 true).events.map
        StockUpdateEvent.eventType = [.STOCK_ADDED]) ∧
    (5 : Int) ≥ (⟨"P1", "Widget", "d", 5, 10⟩ : Inventory).quantity := by
  decide

/-- C7 (amended): for every successful `updateStock` call the emitted event
has eventType `STOCK_ADDED` when the new quantity is strictly greater than
the previous quantity and `STOCK_REDUCED` otherwise (including equality);
every successful `createItem` call emits `STOCK_ADDED` with
`previousQuantity = 0`; and the event is emitted only after the store write
succeeds (the state carrying the event also carries the committed write). -/
theorem stockEvent_type_strict :
    (∀ (store : Store) (productCode : String) (quantity : Int) i,
      findItemById store productCode = some i →
      (updateStock store productCode quantity true).events =
        [⟨if quantity > i.quantity then .STOCK_ADDED else .STOCK_REDUCED,
          productCode, i.quantity, quantity, i.name⟩] ∧
      findItemById (updateStock store productCode quantity true).store
        productCode = some { i with quantity := quantity }) ∧
    (∀ (store : Store) (draws : List Nat) (dto : CreateInventoryDto) out item,
      createItem store draws dto true = some out →
      out.result = .ok item →
      out.events =
        [⟨.STOCK_ADDED, item.productCode, 0, item.quantity, item.name⟩] ∧
      findItemById out.store item.productCode = some item) := by
  constructor
  · intro store productCode quantity i h
    have hcode := findItemById_code h
    subst hcode
    have hout : updateStock store i.productCode quantity true =
        ⟨.ok { i with quantity := quantity },
          saveItem store { i with quantity := quantity },
          [⟨if quantity > i.quantity then .STOCK_ADDED else .STOCK_REDUCED,
            i.productCode, i.quantity, quantity, i.name⟩]⟩ := by
      unfold updateStock
      rw [h]
      rfl
    rw [hout]
    refine ⟨rfl, ?_⟩
    have h' : findItemById store
        ({ i with quantity := quantity } : Inventory).productCode = some i :=
      h
    exact findItemById_saveItem_self h'
  · intro store draws dto out item hc hr
    have hkey : ∀ code : String, findItemById store code = none →
        out = finishCreate store code dto true →
        out.events =
          [⟨.STOCK_ADDED, item.productCode, 0, item.quantity, item.name⟩] ∧
        findItemById out.store item.productCode = some item := by
      intro code hf hout
      subst hout
      have hitem : item =
          ⟨code, dto.name, dto.description, dto.quantity, dto.price⟩ := by
        have hr' : Except.ok (⟨code, dto.name, dto.description, dto.quantity,
            dto.price⟩ : Inventory) = .ok item := hr
        injection hr' with hr'
        exact hr'.symm
      subst hitem
      refine ⟨rfl, ?_⟩
      exact @findItemById_append_singleton store
        ⟨code, dto.name, dto.description, dto.quantity, dto.price⟩ hf
    cases hdto : dto.productCode with
    | some code =>
        cases hf : findItemById store code with
        | some j =>
            simp only [createItem, hdto, hf] at hc
            injection hc with hc
            rw [← hc] at hr
            exact absurd hr (by simp)
        | none =>
            simp only [createItem, hdto, hf] at hc
            injection hc with hc
            exact hkey code hf hc.symm
    | none =>
        cases hg : generateUniqueProductCode store draws with
        | none =>
            simp only [createItem, hdto, hg] at hc
            exact absurd hc (by simp)
        | some code =>
            simp only [createItem, hdto, hg] at hc
            injection hc with hc
            exact hkey code (generateUniqueProductCode_not_found hg) hc.symm

/-- Witness for the amended C7: updating `"P1"` from 5 to 5 yields the
strict-comparison event type. -/
theorem stockEvent_type_strict_witness :
    (updateStock [⟨"P1", "Widget", "d", 5, 10⟩] "P1" 5 true).events =
      [⟨if (5 : Int) > (⟨"P1", "Widget", "d", 5, 10⟩ : Inventory).quantity
          then .STOCK_ADDED else .STOCK_REDUCED,
        "P1", (⟨"P1", "Widget", "d", 5, 10⟩ : Inventory).quantity, 5,
        (⟨"P1", "Widget", "d", 5, 10⟩ : Inventory).name⟩] ∧
    findItemById
      (updateStock [⟨"P1", "Widget", "d", 5, 10⟩] "P1" 5 true).store "P1" =
      some { (⟨"P1", "Widget", "d", 5, 10⟩ : Inventory) with quantity := 5 } :=
  stockEvent_type_strict.1 [⟨"P1", "Widget", "d", 5, 10⟩] "P1" 5
    ⟨"P1", "Widget", "d", 5, 10⟩ (by decide)

/-! ### Product-code format lemmas -/

theorem decChar_isDigit {d : Nat} (h : d < 10) : (decChar d).isDigit = true := by
  interval_cases d <;> decide

theorem natDecDigitsAux_all_digits :
    ∀ (fuel n : Nat), n < fuel →
      ∀ c ∈ natDecDigitsAux fuel n, c.isDigit = true := by
  intro fuel
  induction fuel with
  | zero =>
      intro n hn
      omega
  | succ fuel ih =>
      intro n hn c hc
      rw [natDecDigitsAux] at hc
      by_cases h10 : n < 10
      · rw [if_pos h10] at hc
        simp at hc
        subst hc
        exact decChar_isDigit h10
      · rw [if_neg h10] at hc
        rw [List.mem_append] at hc
        rcases hc with hc | hc
        · exact ih (n / 10) (by omega) c hc
        · simp at hc
          subst hc
          exact decChar_isDigit (Nat.mod_lt _ (by omega))

theorem natDecDigitsAux_length_le :
    ∀ (k fuel n : Nat), n < fuel → n < 10 ^ k →
      (natDecDigitsAux fuel n).length ≤ max 1 k := by
  intro k
  induction k with
  | zero =>
      intro fuel n hf hk
      norm_num at hk
      cases fuel with
      | zero => omega
      | succ fuel =>
          rw [natDecDigitsAux, if_pos (by omega : n < 10)]
          simp
  | succ k ih =>
      intro fuel n hf hk
      cases fuel with
      | zero => omega
      | succ fuel =>
          rw [natDecDigitsAux]
          by_cases h10 : n < 10
          · rw [if_pos h10]
            simp
          · rw [if_neg h10]
            rw [List.length_append]
            simp
            have hk1 : 1 ≤ k := by
              rcases Nat.eq_zero_or_pos k with h0 | h1
              · subst h0
                norm_num at hk
                omega
              · exact h1
            have hdiv10 : n / 10 < 10 ^ k := by
              rw [pow_succ] at hk
              exact Nat.div_lt_of_lt_mul (by omega)
            have hrec := ih fuel (n / 10) (by omega) hdiv10
            rw [Nat.max_eq_right hk1] at hrec
            exact hrec

theorem natDecDigits_all_digits (n : Nat) :
    ∀ c ∈ natDecDigits n, c.isDigit = true :=
  natDecDigitsAux_all_digits (n + 1) n (by omega)

theorem natDecDigits_length_le {k n : Nat} (h : n < 10 ^ k) :
    (natDecDigits n).length ≤ max 1 k :=
  natDecDigitsAux_length_le k (n + 1) n (by omega) h

theorem padStartZeros_length {w : Nat} {s : String} (h : s.length ≤ w) :
    (padStartZeros w s).length = w := by
  unfold padStartZeros
  by_cases hge : s.length ≥ w
  · rw [if_pos hge]
    omega
  · rw [if_neg hge]
    rw [String.length_append]
    simp
    omega

theorem padStartZeros_all_digits {w : Nat} {s : String}
    (h : ∀ c ∈ s.data, c.isDigit = true) :
    ∀ c ∈ (padStartZeros w s).data, c.isDigit = true := by
  unfold padStartZeros
  by_cases hge : s.length ≥ w
  · rw [if_pos hge]
    exact h
  · rw [if_neg hge]
    intro c hc
    rw [String.data_append] at hc
    rw [List.mem_append] at hc
    rcases hc with hc | hc
    · have hch : c = '0' := List.eq_of_mem_replicate hc
      subst hch
      decide
    · exact h c hc

theorem generateProductCode_format (n : Nat) :
    ∃ s : String, generateProductCode n = "INV-" ++ s ∧ s.length = 9 ∧
      ∀ c ∈ s.data, c.isDigit = true := by
  refine ⟨padStartZeros 9 (natToDecString (n % 1000000000)), rfl, ?_, ?_⟩
  · apply padStartZeros_length
    have hm : n % 1000000000 < 10 ^ 9 := by
      have h1 : n % 1000000000 < 1000000000 := Nat.mod_lt _ (by omega)
      have h2 : (10 : Nat) ^ 9 = 1000000000 := by norm_num
      omega
    have hlen := natDecDigits_length_le hm
    have hsame : (natToDecString (n % 1000000000)).length =
        (natDecDigits (n % 1000000000)).length := rfl
    rw [hsame]
    simpa using hlen
  · apply padStartZeros_all_digits
    intro c hc
    exact natDecDigits_all_digits _ c hc

/-- C9: creating an item without a caller-supplied `productCode` and then
fetching it by the returned code yields the same `name`, `quantity` and
`price`; the generated code is `INV-` followed by 9 zero-padded decimal
digits and collides with no code already in the store. -/
theorem createItem_roundtrip (store : Store) (draws : List Nat)
    (dto : CreateInventoryDto) (out : OpOutcome Inventory) (item : Inventory)
    (hdto : dto.productCode = none)
    (hc : createItem store draws dto true = some out)
    (hr : out.result = .ok item) :
    getItem out.store item.productCode = .ok item ∧
    item.name = dto.name ∧ item.quantity = dto.quantity ∧
    item.price = dto.price ∧
    findItemById store item.productCode = none ∧
    ∃ s : String, item.productCode = "INV-" ++ s ∧ s.length = 9 ∧
      ∀ c ∈ s.data, c.isDigit = true := by
  cases hg : generateUniqueProductCode store draws with
  | none =>
      simp only [createItem, hdto, hg] at hc
      exact absurd hc (by simp)
  | some code =>
      simp only [createItem, hdto, hg] at hc
      injection hc with hc
      subst hc
      have hitem : item =
          ⟨code, dto.name, dto.description, dto.quantity, dto.price⟩ := by
        have hr' : Except.ok (⟨code, dto.name, dto.description, dto.quantity,
            dto.price⟩ : Inventory) = .ok item := hr
        injection hr' with hr'
        exact hr'.symm
      subst hitem
      have hn := generateUniqueProductCode_not_found hg
      have happ := @findItemById_append_singleton store
        ⟨code, dto.name, dto.description, dto.quantity, dto.price⟩ hn
      refine ⟨?_, rfl, rfl, rfl, hn, ?_⟩
      · unfold getItem
        rw [show findItemById (finishCreate store code dto true).store
            (⟨code, dto.name, dto.description, dto.quantity, dto.price⟩ :
              Inventory).productCode =
            some ⟨code, dto.name, dto.description, dto.quantity, dto.price⟩
          from happ]
      · obtain ⟨n, hcode⟩ := generateUniqueProductCode_mem hg
        obtain ⟨s, hs1, hs2, hs3⟩ := generateProductCode_format n
        refine ⟨s, ?_, hs2, hs3⟩
        rw [hcode]
        exact hs1

/-- Witness for C9: creating with random draw 123 on the empty store
generates `INV-000000123` and round-trips. -/
theorem createItem_roundtrip_witness :
    getItem
      (finishCreate [] "INV-000000123" ⟨none, "N", "D", 4, 9⟩ true).store
      "INV-000000123" = .ok ⟨"INV-000000123", "N", "D", 4, 9⟩ ∧
    "N" = "N" ∧ (4 : Int) = 4 ∧ (9 : Rat) = 9 ∧
    findItemById [] "INV-000000123" = none ∧
    (∃ s : String, "INV-000000123" = "INV-" ++ s ∧ s.length = 9 ∧
      ∀ c ∈ s.data, c.isDigit = true) :=
  createItem_roundtrip [] [123] ⟨none, "N", "D", 4, 9⟩
    (finishCreate [] "INV-000000123" ⟨none, "N", "D", 4, 9⟩ true)
    ⟨"INV-000000123", "N", "D", 4, 9⟩ rfl rfl rfl

/-! ### Store non-negativity invariant (C6) -/

theorem storeNonNeg_saveItem {store : Store} {item : Inventory}
    (h : StoreNonNeg store) (hq : 0 ≤ item.quantity) :
    StoreNonNeg (saveItem store item) := by
  intro j hj
  unfold saveItem at hj
  rw [List.mem_map] at hj
  obtain ⟨a, ha, hj⟩ := hj
  rw [← hj]
  by_cases hpc : a.productCode = item.productCode
  · rw [if_pos hpc]
    exact hq
  · rw [if_neg hpc]
    exact h a ha

theorem storeNonNeg_append {store : Store} {item : Inventory}
    (h : StoreNonNeg store) (hq : 0 ≤ item.quantity) :
    StoreNonNeg (store ++ [item]) := by
  intro j hj
  rw [List.mem_append] at hj
  rcases hj with hj | hj
  · exact h j hj
  · simp at hj
    rw [hj]
    exact hq

theorem finishCreate_store (store : Store) (code : String)
    (dto : CreateInventoryDto) (publishOk : Bool) :
    (finishCreate store code dto publishOk).store =
      store ++ [⟨code, dto.name, dto.description, dto.quantity, dto.price⟩] := by
  unfold finishCreate
  cases publishOk <;> rfl

theorem createItem_store_nonneg {store : Store} {draws : List Nat}
    {dto : CreateInventoryDto} {publishOk : Bool} {out : OpOutcome Inventory}
    (h : StoreNonNeg store) (hq : 0 ≤ dto.quantity)
    (hc : createItem store draws dto publishOk = some out) :
    StoreNonNeg out.store := by
  cases hdto : dto.productCode with
  | some code =>
      cases hf : findItemById store code with
      | some j =>
          simp only [createItem, hdto, hf] at hc
          injection hc with hc
          rw [← hc]
          exact h
      | none =>
          simp only [createItem, hdto, hf] at hc
          injection hc with hc
          rw [← hc, finishCreate_store]
          exact storeNonNeg_append h hq
  | none =>
      cases hg : generateUniqueProductCode store draws with
      | none =>
          simp only [createItem, hdto, hg] at hc
          exact absurd hc (by simp)
      | some code =>
          simp only [createItem, hdto, hg] at hc
          injection hc with hc
          rw [← hc, finishCreate_store]
          exact storeNonNeg_append h hq

theorem updateStock_store_nonneg {store : Store} {productCode : String}
    {quantity : Int} {publishOk : Bool}
    (h : StoreNonNeg store) (hq : 0 ≤ quantity) :
    StoreNonNeg (updateStock store productCode quantity publishOk).store := by
  cases hf : findItemById store productCode with
  | none =>
      have hst : (updateStock store productCode quantity publishOk).store =
          store := by
        unfold updateStock
        rw [hf]
      rw [hst]
      exact h
  | some i =>
      have hst : (updateStock store productCode quantity publishOk).store =
          saveItem store { i with quantity := quantity } := by
        unfold updateStock
        rw [hf]
        cases publishOk <;> rfl
      rw [hst]
      exact storeNonNeg_saveItem h hq

theorem deductStock_store_nonneg {store : Store} {productCode : String}
    {quantity : Int} {publishOk : Bool} (h : StoreNonNeg store) :
    StoreNonNeg (deductStock store productCode quantity publishOk).store := by
  cases hf : findItemById store productCode with
  | none =>
      have hst : (deductStock store productCode quantity publishOk).store =
          store := by
        unfold deductStock
        rw [hf]
      rw [hst]
      exact h
  | some i =>
      by_cases hlt : i.quantity < quantity
      · have hst : (deductStock store productCode quantity publishOk).store =
            store := by
          unfold deductStock
          rw [hf]
          simp [hlt]
        rw [hst]
        exact h
      · have hst : (deductStock store productCode quantity publishOk).store =
            saveItem store { i with quantity := i.quantity - quantity } := by
          unfold deductStock
          rw [hf]
          cases publishOk <;> simp [hlt]
        rw [hst]
        have hi := h i (findItemById_mem hf)
        exact storeNonNeg_saveItem h
          (show (0 : Int) ≤ i.quantity - quantity by omega)

theorem applyInvOp_create (store : Store) (draws : List Nat)
    (dto : CreateInventoryDto) (publishOk : Bool) :
    applyInvOp store (.create draws dto publishOk) =
      match createItemEndpoint store draws dto publishOk with
      | none => store
      | some out => out.store := rfl

theorem applyInvOp_update (store : Store) (productCode : String)
    (quantity : Int) (publishOk : Bool) :
    applyInvOp store (.update productCode quantity publishOk) =
      (updateStockEndpoint store productCode quantity publishOk).store := rfl

theorem applyInvOp_deduct (store : Store) (productCode : String)
    (quantity : Int) (publishOk : Bool) :
    applyInvOp store (.deduct productCode quantity publishOk) =
      (deductStock store productCode quantity publishOk).store := rfl

theorem applyInvOp_nonneg (store : Store) (op : InvOp)
    (h : StoreNonNeg store) : StoreNonNeg (applyInvOp store op) := by
  cases op with
  | create draws dto publishOk =>
      rw [applyInvOp_create]
      by_cases hv : validCreateDto dto
      · have he : createItemEndpoint store draws dto publishOk =
            createItem store draws dto publishOk := by
          unfold createItemEndpoint
          rw [if_pos hv]
        rw [he]
        have hq : 0 ≤ dto.quantity := by
          unfold validCreateDto at hv
          rw [Bool.and_eq_true] at hv
          exact of_decide_eq_true hv.1
        cases hc : createItem store draws dto publishOk with
        | none => exact h
        | some out => exact createItem_store_nonneg h hq hc
      · have he : createItemEndpoint store draws dto publishOk =
            some ⟨.error .ValidationError, store, []⟩ := by
          unfold createItemEndpoint
          rw [if_neg hv]
        rw [he]
        exact h
  | update productCode quantity publishOk =>
      rw [applyInvOp_update]
      by_cases hv : validUpdateQuantity quantity
      · have he : updateStockEndpoint store productCode quantity publishOk =
            updateStock store productCode quantity publishOk := by
          unfold updateStockEndpoint
          rw [if_pos hv]
        rw [he]
        have hq : 0 ≤ quantity := by
          unfold validUpdateQuantity at hv
          have := of_decide_eq_true hv
          omega
        exact updateStock_store_nonneg h hq
      · have he : updateStockEndpoint store productCode quantity publishOk =
            ⟨.error .ValidationError, store, []⟩ := by
          unfold updateStockEndpoint
          rw [if_neg hv]
        rw [he]
        exact h
  | deduct productCode quantity publishOk =>
      rw [applyInvOp_deduct]
      exact deductStock_store_nonneg h

/-- C6: for every sequence of `createItem`, `updateStock` and `deductStock`
operations, starting from a store holding no negative quantity, the store
never holds a negative quantity: every stored quantity stays a non-negative
integer. -/
theorem inventory_quantities_nonneg (store : Store) (ops : List InvOp)
    (h : StoreNonNeg store) :
    StoreNonNeg (ops.foldl applyInvOp store) := by
  induction ops generalizing store with
  | nil => exact h
  | cons op rest ih => exact ih _ (applyInvOp_nonneg store op h)

/-- Witness for C6: a create, an update and a deduct on the generated item,
starting from the empty store. -/
theorem inventory_quantities_nonneg_witness :
    StoreNonNeg (List.foldl applyInvOp []
      [InvOp.create [1] ⟨none, "N", "D", 4, 9⟩ true,
       InvOp.update "INV-000000001" 2 true,
       InvOp.deduct "INV-000000001" 2 true]) :=
  inventory_quantities_nonneg []
    [InvOp.create [1] ⟨none, "N", "D", 4, 9⟩ true,
     InvOp.update "INV-000000001" 2 true,
     InvOp.deduct "INV-000000001" 2 true] (by decide)

/-! ### Broker registry lemmas (C5) -/

theorem brokerStep_WF {s : BrokerState} (h : BrokerWF s) (e : BrokerEvent) :
    BrokerWF (brokerStep s e) := by
  obtain ⟨hnd, hlt, hpo, hno⟩ := h
  cases e with
  | reply cid payload =>
      by_cases hc : cid ∈ s.pending
      · simp only [brokerStep]
        rw [if_pos hc]
        refine ⟨hnd.erase cid, ?_, ?_, ?_⟩
        · intro c hcm
          have hcm2 : c ∈ s.pending.erase cid := hcm
          show c < s.nextId
          exact hlt c (List.mem_of_mem_erase hcm2)
        · intro c hcm
          have hcm2 : c ∈ s.pending.erase cid := hcm
          have hne : c ≠ cid := by
            intro hcc
            rw [hcc] at hcm2
            exact (List.Nodup.not_mem_erase hnd) hcm2
          show (if c = cid then some (RpcOutcome.resolved payload)
            else s.outcomes c) = none
          rw [if_neg hne]
          exact hpo c (List.mem_of_mem_erase hcm2)
        · intro c hle
          have hle2 : s.nextId ≤ c := hle
          have hne : c ≠ cid := by
            intro hcc
            rw [hcc] at hle2
            have := hlt cid hc
            omega
          show (if c = cid then some (RpcOutcome.resolved payload)
            else s.outcomes c) = none
          rw [if_neg hne]
          exact hno c hle2
      · simp only [brokerStep]
        rw [if_neg hc]
        exact ⟨hnd, hlt, hpo, hno⟩
  | timeout cid =>
      by_cases hc : cid ∈ s.pending
      · simp only [brokerStep]
        rw [if_pos hc]
        refine ⟨hnd.erase cid, ?_, ?_, ?_⟩
        · intro c hcm
          have hcm2 : c ∈ s.pending.erase cid := hcm
          show c < s.nextId
          exact hlt c (List.mem_of_mem_erase hcm2)
        · intro c hcm
          have hcm2 : c ∈ s.pending.erase cid := hcm
          have hne : c ≠ cid := by
            intro hcc
            rw [hcc] at hcm2
            exact (List.Nodup.not_mem_erase hnd) hcm2
          show (if c = cid then some RpcOutcome.timedOut
            else s.outcomes c) = none
          rw [if_neg hne]
          exact hpo c (List.mem_of_mem_erase hcm2)
        · intro c hle
          have hle2 : s.nextId ≤ c := hle
          have hne : c ≠ cid := by
            intro hcc
            rw [hcc] at hle2
            have := hlt cid hc
            omega
          show (if c = cid then some RpcOutcome.timedOut
            else s.outcomes c) = none
          rw [if_neg hne]
          exact hno c hle2
      · simp only [brokerStep]
        rw [if_neg hc]
        exact ⟨hnd, hlt, hpo, hno⟩
  | register =>
      refine ⟨?_, ?_, ?_, ?_⟩
      · show (s.nextId :: s.pending).Nodup
        refine List.nodup_cons.mpr ⟨?_, hnd⟩
        intro hm
        have := hlt s.nextId hm
        omega
      · intro c hcm
        have hcm2 : c ∈ s.nextId :: s.pending := hcm
        show c < s.nextId + 1
        rcases List.mem_cons.mp hcm2 with hcc | hm
        · omega
        · have := hlt c hm
          omega
      · intro c hcm
        have hcm2 : c ∈ s.nextId :: s.pending := hcm
        show s.outcomes c = none
        rcases List.mem_cons.mp hcm2 with hcc | hm
        · rw [hcc]
          exact hno s.nextId (by omega)
        · exact hpo c hm
      · intro c hle
        have hle2 : s.nextId + 1 ≤ c := hle
        show s.outcomes c = none
        exact hno c (by omega)

theorem brokerStep_outcome_frozen {s : BrokerState} (h : BrokerWF s)
    {cid : Nat} {o : RpcOutcome} (ho : s.outcomes cid = some o)
    (e : BrokerEvent) : (brokerStep s e).outcomes cid = some o := by
  have hcp : cid ∉ s.pending := by
    intro hm
    rw [h.2.2.1 cid hm] at ho
    exact Option.noConfusion ho
  cases e with
  | reply cid2 payload =>
      by_cases hc : cid2 ∈ s.pending
      · simp only [brokerStep]
        rw [if_pos hc]
        have hne : cid ≠ cid2 := by
          intro hcc
          subst hcc
          exact hcp hc
        show (if cid = cid2 then some (.resolved payload) else
          s.outcomes cid) = some o
        rw [if_neg hne]
        exact ho
      · simp only [brokerStep]
        rw [if_neg hc]
        exact ho
  | timeout cid2 =>
      by_cases hc : cid2 ∈ s.pending
      · simp only [brokerStep]
        rw [if_pos hc]
        have hne : cid ≠ cid2 := by
          intro hcc
          subst hcc
          exact hcp hc
        show (if cid = cid2 then some .timedOut else s.outcomes cid) = some o
        rw [if_neg hne]
        exact ho
      · simp only [brokerStep]
        rw [if_neg hc]
        exact ho
  | register => exact ho

theorem brokerRun_WF {s : BrokerState} (h : BrokerWF s)
    (evs : List BrokerEvent) : BrokerWF (brokerRun s evs) := by
  induction evs generalizing s with
  | nil => exact h
  | cons e rest ih => exact ih (brokerStep_WF h e)

theorem brokerRun_outcome_frozen {s : BrokerState} (h : BrokerWF s)
    {cid : Nat} {o : RpcOutcome} (ho : s.outcomes cid = some o)
    (evs : List BrokerEvent) :
    (brokerRun s evs).outcomes cid = some o := by
  induction evs generalizing s with
  | nil => exact ho
  | cons e rest ih =>
      exact ih (brokerStep_WF h e) (brokerStep_outcome_frozen h ho e)

/-- C5: for a pending RPC registered under `cid` in a well-formed registry,
the registration is removed exactly once, either by a matching reply
(resolving the caller with the reply payload) or by timeout expiry
(rejecting with `TimedOut`), never both: after the timeout fires, any later
sequence of events (including replies to `cid`) leaves the caller with
`TimedOut` exactly, the waiter stays deregistered, and the registry stays
well-formed (so at most one waiter exists per correlation id, and a reply
for a removed correlation id leaves the state untouched). -/
theorem publishWithResponse_exactly_once (s : BrokerState) (cid : Nat)
    (evs : List BrokerEvent) (h : BrokerWF s) (hp : cid ∈ s.pending) :
    ((brokerRun s (BrokerEvent.timeout cid :: evs)).outcomes cid =
        some .timedOut ∧
      cid ∉ (brokerRun s (BrokerEvent.timeout cid :: evs)).pending ∧
      BrokerWF (brokerRun s (BrokerEvent.timeout cid :: evs))) ∧
    (∀ payload : Nat,
      (brokerRun s (BrokerEvent.reply cid payload :: evs)).outcomes cid =
        some (.resolved payload) ∧
      cid ∉ (brokerRun s (BrokerEvent.reply cid payload :: evs)).pending ∧
      BrokerWF (brokerRun s (BrokerEvent.reply cid payload :: evs))) ∧
    (∀ (t : BrokerState) (payload : Nat), cid ∉ t.pending →
      brokerStep t (.reply cid payload) = t) := by
  have hkey : ∀ (e : BrokerEvent) (o : RpcOutcome),
      (brokerStep s e).outcomes cid = some o →
      (brokerRun s (e :: evs)).outcomes cid = some o ∧
      cid ∉ (brokerRun s (e :: evs)).pending ∧
      BrokerWF (brokerRun s (e :: evs)) := by
    intro e o hstep
    have hwf1 := brokerStep_WF h e
    have hrun : (brokerRun s (e :: evs)).outcomes cid = some o :=
      brokerRun_outcome_frozen hwf1 hstep evs
    have hwf2 : BrokerWF (brokerRun s (e :: evs)) := brokerRun_WF hwf1 evs
    refine ⟨hrun, ?_, hwf2⟩
    intro hmem
    have hnone := hwf2.2.2.1 cid hmem
    rw [hnone] at hrun
    exact Option.noConfusion hrun
  refine ⟨?_, ?_, ?_⟩
  · refine hkey (.timeout cid) .timedOut ?_
    simp only [brokerStep]
    rw [if_pos hp]
    simp
  · intro payload
    refine hkey (.reply cid payload) (.resolved payload) ?_
    simp only [brokerStep]
    rw [if_pos hp]
    simp
  · intro t payload hout
    simp only [brokerStep]
    rw [if_neg hout]

/-- Witness for C5: a registry holding the single pending id 0; its timeout
fires and a late reply with payload 7 is discarded. -/
theorem publishWithResponse_exactly_once_witness :
    ((brokerRun ⟨1, [0], fun _ => none⟩
        (BrokerEvent.timeout 0 :: [BrokerEvent.reply 0 7])).outcomes 0 =
        some .timedOut ∧
      0 ∉ (brokerRun ⟨1, [0], fun _ => none⟩
        (BrokerEvent.timeout 0 :: [BrokerEvent.reply 0 7])).pending ∧
      BrokerWF (brokerRun ⟨1, [0], fun _ => none⟩
        (BrokerEvent.timeout 0 :: [BrokerEvent.reply 0 7]))) ∧
    (∀ payload : Nat,
      (brokerRun ⟨1, [0], fun _ => none⟩
        (BrokerEvent.reply 0 payload :: [BrokerEvent.reply 0 7])).outcomes 0 =
        some (.resolved payload) ∧
      0 ∉ (brokerRun ⟨1, [0], fun _ => none⟩
        (BrokerEvent.reply 0 payload :: [BrokerEvent.reply 0 7])).pending ∧
      BrokerWF (brokerRun ⟨1, [0], fun _ => none⟩
        (BrokerEvent.reply 0 payload :: [BrokerEvent.reply 0 7]))) ∧
    (∀ (t : BrokerState) (payload : Nat), 0 ∉ t.pending →
      brokerStep t (.reply 0 payload) = t) :=
  publishWithResponse_exactly_once ⟨1, [0], fun _ => none⟩ 0
    [BrokerEvent.reply 0 7]
    ⟨by simp, by simp, by simp, fun _ _ => rfl⟩ (by simp)

end ECom
